import Mathlib

/-
Verification of the agon-flash firmware update utility (src/main.c, src/flash.h).
The flash-programming state machine of update_mos is embedded as a pure function
producing a trace of hardware-level events; the coprocessor handshake and the
image validators are embedded as pure functions of the observed screen and
buffer contents. The streaming CRC-32 module lives outside this repository
(crc32.h is an external header) and is modelled from the specification.
-/

set_option linter.all false
set_option maxRecDepth 8000

namespace AgonFlash

/-- Flash geometry constant from flash.h: program page size in bytes. -/
def PAGESIZE : Nat := 1024

/-- Flash geometry constant from flash.h: number of flash pages covered by the
erase loop of update_mos. -/
def FLASHPAGES : Nat := 128

/-- Flash geometry constant from flash.h: base address of the flash target. -/
def FLASHSTART : Nat := 0

/-- Flash geometry constant from flash.h: total flash capacity in bytes. -/
def FLASHSIZE : Nat := 0x20000

/-- RAM staging buffer base address from flash.h. -/
def BUFFER1 : Nat := 0x50000

/-- Modelled from the spec: the CRC-32 module (crc32.h, linked from outside
this repository) is not part of src/. One shift-xor step with the reflected
polynomial 0xEDB88320. -/
def crc32_step (crc : Nat) : Nat :=
  if crc % 2 = 1 then (crc / 2) ^^^ 0xEDB88320 else crc / 2

/-- Modelled from the spec: n iterations of the CRC-32 bit step. -/
def crc32_bits : Nat → Nat → Nat
  | 0, crc => crc
  | n + 1, crc => crc32_bits n (crc32_step crc)

/-- Modelled from the spec: absorb one input byte into the accumulator. -/
def crc32_updateByte (crc b : Nat) : Nat :=
  crc32_bits 8 (crc ^^^ (b % 256))

/-- Modelled from the spec: crc32(buf, size) feeds one byte chunk into the
running accumulator (the C code keeps the accumulator in a global variable;
here it is passed explicitly). -/
def crc32 (crc : Nat) (buf : List Nat) : Nat :=
  buf.foldl crc32_updateByte crc

/-- Modelled from the spec: accumulator initial value 0xFFFFFFFF. -/
def crc32_init : Nat := 0xFFFFFFFF

/-- Modelled from the spec: finalization is the xor with 0xFFFFFFFF. -/
def crc32_finalize (crc : Nat) : Nat := crc ^^^ 0xFFFFFFFF

/-- Checksum of a whole byte sequence, as computed by a fresh
initialize-feed-finalize pass. -/
def crc32_bytes (bs : List Nat) : Nat := crc32_finalize (crc32 crc32_init bs)

/-- Hardware-level events issued by update_mos from the di instruction onward.
UI output (outstring, putch) is not modelled. An ei event would be the
re-enabling of interrupts; the constructor exists so its absence is statable. -/
inductive Ev where
  | di
  | ei
  | flashKeyUnlock
  | setProt (v : Nat)
  | setFdiv (v : Nat)
  | eraseWait (page : Nat)
  | progPage (addrTo addrFrom len : Nat)
  | verifyCheck
  deriving DecidableEq

/-- Number of flash pages written by one attempt (main.c lines 246-252). -/
def pagemaxOf (filesize : Nat) : Nat :=
  if filesize % PAGESIZE ≠ 0 then filesize / PAGESIZE + 1 else filesize / PAGESIZE

/-- Byte length of the final page copy (main.c lines 246-252). -/
def lastpagebytesOf (filesize : Nat) : Nat :=
  if filesize % PAGESIZE ≠ 0 then filesize % PAGESIZE else PAGESIZE

/-- Page program events of one attempt (main.c lines 254-266). -/
def progEvents (filesize : Nat) : List Ev :=
  (List.range (pagemaxOf filesize)).map fun counter =>
    Ev.progPage (FLASHSTART + counter * PAGESIZE) (BUFFER1 + counter * PAGESIZE)
      (if counter = pagemaxOf filesize - 1 then lastpagebytesOf filesize else PAGESIZE)

/-- Events of main.c lines 234-237: unlock the flash key register, clear
protection on all blocks, unlock again, set the flash frequency divider. -/
def attemptPreamble : List Ev :=
  [Ev.flashKeyUnlock, Ev.setProt 0, Ev.flashKeyUnlock, Ev.setFdiv 0x5F]

/-- Erase-and-busy-wait events of main.c lines 239-243, one per flash page. -/
def eraseEvents : List Ev :=
  (List.range FLASHPAGES).map Ev.eraseWait

/-- Events of main.c lines 267-275: unlock the flash key register, restore
protection on all blocks, then compute the verify checksum over flash. -/
def attemptPost : List Ev :=
  [Ev.flashKeyUnlock, Ev.setProt 0xFF, Ev.verifyCheck]

/-- Event trace of one full erase-program-verify attempt
(main.c lines 231-275). -/
def attemptTrace (filesize : Nat) : List Ev :=
  attemptPreamble ++ eraseEvents ++ progEvents filesize ++ attemptPost

/-- The retry loop of main.c lines 222-284. vOk tells whether the checksum
read back from flash matches on a given attempt; fuel is 3 minus the attempt
counter. Returns the emitted events, the success flag and the final attempt
counter. -/
def mosAttempts (vOk : Nat → Bool) (filesize : Nat) : Nat → Nat → List Ev × Bool × Nat
  | 0, attempt => ([], false, attempt)
  | fuel + 1, attempt =>
    if vOk attempt then (attemptTrace filesize, true, attempt + 1)
    else
      let r := mosAttempts vOk filesize fuel (attempt + 1)
      (attemptTrace filesize ++ r.1, r.2.1, r.2.2)

/-- Result of update_mos: the returned flag, the final attempt counter and the
hardware event trace. -/
structure MosResult where
  success : Bool
  attempts : Nat
  trace : List Ev
  deriving DecidableEq

/-- update_mos (main.c lines 188-287). fileBytes is the file content staged
into RAM, moscrc the checksum computed earlier by calculateCRC32, and
verifyCrc the checksum read back from flash on each attempt (the flash
hardware response is a parameter of the model). The staging pass recomputes
the checksum of fileBytes; on mismatch the function returns before issuing
any hardware event. -/
def update_mos (fileBytes : List Nat) (moscrc : Nat) (verifyCrc : Nat → Nat) : MosResult :=
  let crcresult := crc32_bytes fileBytes
  if crcresult ≠ moscrc then ⟨false, 0, []⟩
  else
    let r := mosAttempts (fun attempt => verifyCrc attempt == moscrc) fileBytes.length 3 0
    ⟨r.2.1, r.2.2, Ev.di :: r.1⟩

/-- Buffer length of the unlock response match (main.c line 38). -/
def UNLOCKMATCHLENGTH : Nat := 9

/-- Byte values of the literal string compared against the readback,
unlocked followed by an exclamation mark (main.c line 114). -/
def unlockMatch : List Nat := [117, 110, 108, 111, 99, 107, 101, 100, 33]

/-- Indices n at which the loop of main.c line 112 stores into the local
array test: the loop bound is UNLOCKMATCHLENGTH + 1. -/
def vdpStoreIndices : List Nat := List.range (UNLOCKMATCHLENGTH + 1)

/-- Characters read back by vdp_ota_present: getCharAt(n + 8, 3) for each n in
the store loop (main.c line 112). screen gives the character at an x, y
position. -/
def vdpReadback (screen : Nat → Nat → Nat) : List Nat :=
  vdpStoreIndices.map fun n => screen (n + 8) 3

/-- vdp_ota_present (main.c lines 102-116): sends the unlock command, reads
back the response characters, and compares the first UNLOCKMATCHLENGTH of
them against the literal match string. -/
def vdp_ota_present (screen : Nat → Nat → Nat) : Bool :=
  (vdpReadback screen).take UNLOCKMATCHLENGTH == unlockMatch

/-- Result of update_vdp: how many times the unlock command was sent, whether
startVDPupdate was invoked, and the returned flag. -/
structure VdpResult where
  unlockSends : Nat
  triggerSent : Bool
  ok : Bool
  deriving DecidableEq

/-- update_vdp (main.c lines 169-186): calls vdp_ota_present once; on failure
it reports and returns false without sending the transfer trigger, otherwise
it sends startVDPupdate and returns true. -/
def update_vdp (screen : Nat → Nat → Nat) : VdpResult :=
  if vdp_ota_present screen then ⟨1, true, true⟩ else ⟨1, false, false⟩

/-- ESP32 magic byte values (main.c line 128). -/
def esp32_magicnumbers : List Nat := [0x32, 0x54, 0xCD, 0xAB]

/-- Length of the ESP32 magic sequence (main.c line 129). -/
def ESP32_MAGICLENGTH : Nat := 4

/-- Offset of the ESP32 magic sequence in the image (main.c line 130). -/
def ESP32_MAGICSTART : Nat := 0x20

/-- containsESP32Header (main.c lines 131-140). filestart gives the byte of
the buffer at each offset; the function starts a match flag at true and
clears it on any mismatch over the magic window. -/
def containsESP32Header (filestart : Nat → Nat) : Bool :=
  (List.range ESP32_MAGICLENGTH).foldl
    (fun m n =>
      if esp32_magicnumbers.getD n 0 ≠ filestart (ESP32_MAGICSTART + n) then false else m)
    true

/-- A screen whose readback row spells the unlock match string. -/
def goodScreen : Nat → Nat → Nat := fun x _ => unlockMatch.getD (x - 8) 0

/-- A buffer carrying the ESP32 magic at offset 0x20 and zero elsewhere. -/
def espGoodBuf : Nat → Nat := fun i =>
  if i = 0x20 then 0x32 else if i = 0x21 then 0x54 else
  if i = 0x22 then 0xCD else if i = 0x23 then 0xAB else 0

/-- espGoodBuf changed in the single byte at offset 0x23. -/
def espBadBuf : Nat → Nat := fun i => if i = 0x23 then 0 else espGoodBuf i

/-- Recognizer for erase events. -/
def isErase : Ev → Bool
  | Ev.eraseWait _ => true
  | _ => false

/-- Recognizer for page program events. -/
def isProg : Ev → Bool
  | Ev.progPage _ _ _ => true
  | _ => false

/-- The pages erased by a trace, in order. -/
def erasedPages (l : List Ev) : List Nat :=
  l.filterMap fun e =>
    match e with
    | Ev.eraseWait p => some p
    | _ => none

example : crc32_bytes [] = 0 := by decide

example :
    (update_mos [] 0 (fun _ => 1)).attempts = 3 ∧
    (update_mos [] 0 (fun _ => 1)).success = false := by decide

example : (update_mos [] 1 (fun _ => 1)).trace = [] := by decide

example : update_vdp goodScreen = ⟨1, true, true⟩ := by decide

example : update_vdp (fun _ _ => 0) = ⟨1, false, false⟩ := by decide

example : containsESP32Header espGoodBuf = true := by decide

example : containsESP32Header espBadBuf = false := by decide

example : vdpStoreIndices.all (fun i => i < UNLOCKMATCHLENGTH) = false := by decide

lemma progEvents_mem {filesize : Nat} {e : Ev} (h : e ∈ progEvents filesize) :
    ∃ x y z, e = Ev.progPage x y z := by
  simp only [progEvents, List.mem_map, List.mem_range] at h
  obtain ⟨c, _, hc⟩ := h
  exact ⟨_, _, _, hc.symm⟩

lemma progEvents_count (filesize : Nat) (a : Ev)
    (h : ∀ x y z, a ≠ Ev.progPage x y z) : (progEvents filesize).count a = 0 := by
  refine List.count_eq_zero.mpr fun hmem => ?_
  obtain ⟨x, y, z, hc⟩ := progEvents_mem hmem
  exact h x y z hc

lemma attemptTrace_count_relock (fs : Nat) :
    (attemptTrace fs).count (Ev.setProt 0xFF) = 1 := by
  simp [attemptTrace, List.count_append,
    progEvents_count fs (Ev.setProt 0xFF) (by intro x y z h; cases h)]
  decide

lemma attemptTrace_count_verify (fs : Nat) :
    (attemptTrace fs).count Ev.verifyCheck = 1 := by
  simp [attemptTrace, List.count_append,
    progEvents_count fs Ev.verifyCheck (by intro x y z h; cases h)]
  decide

lemma attemptTrace_count_di (fs : Nat) : (attemptTrace fs).count Ev.di = 0 := by
  simp [attemptTrace, List.count_append,
    progEvents_count fs Ev.di (by intro x y z h; cases h)]
  decide

lemma attemptTrace_count_ei (fs : Nat) : (attemptTrace fs).count Ev.ei = 0 := by
  simp [attemptTrace, List.count_append,
    progEvents_count fs Ev.ei (by intro x y z h; cases h)]
  decide

lemma count_flatten_replicate (n : Nat) (l : List Ev) (a : Ev) :
    ((List.replicate n l).flatten).count a = n * l.count a := by
  induction n with
  | zero => simp
  | succ k ih =>
    simp [List.replicate_succ, List.count_append, ih, Nat.succ_mul, Nat.add_comm]

lemma mosAttempts3 (vOk : Nat → Bool) (fs : Nat) :
    mosAttempts vOk fs 3 0 =
      if vOk 0 then ((List.replicate 1 (attemptTrace fs)).flatten, true, 1)
      else if vOk 1 then ((List.replicate 2 (attemptTrace fs)).flatten, true, 2)
      else if vOk 2 then ((List.replicate 3 (attemptTrace fs)).flatten, true, 3)
      else ((List.replicate 3 (attemptTrace fs)).flatten, false, 3) := by
  cases h0 : vOk 0 <;> cases h1 : vOk 1 <;> cases h2 : vOk 2 <;>
    simp [mosAttempts, h0, h1, h2, List.replicate_succ]

/-- Claim C1: when the post-program verify checksum mismatches the expected
checksum on every attempt, update_mos performs exactly 3 full
erase-program-verify cycles (the trace is exactly three copies of the attempt
trace, containing three verify events) and returns failure with the attempt
counter at 3. -/
theorem update_mos_exhausts_after_three (fileBytes : List Nat) (moscrc : Nat)
    (verifyCrc : Nat → Nat)
    (hstage : crc32_bytes fileBytes = moscrc)
    (hfail : ∀ a, verifyCrc a ≠ moscrc) :
    (update_mos fileBytes moscrc verifyCrc).success = false ∧
    (update_mos fileBytes moscrc verifyCrc).attempts = 3 ∧
    (update_mos fileBytes moscrc verifyCrc).trace =
      Ev.di :: (List.replicate 3 (attemptTrace fileBytes.length)).flatten ∧
    (update_mos fileBytes moscrc verifyCrc).trace.count Ev.verifyCheck = 3 := by
  have hv : ∀ a, (verifyCrc a == moscrc) = false :=
    fun a => beq_eq_false_iff_ne.mpr (hfail a)
  simp [update_mos, hstage, mosAttempts3, hv, List.count_cons,
    count_flatten_replicate, attemptTrace_count_verify]

/-- Witness for C1 at a concrete input: the empty staged image with matching
staging checksum 0 and a flash readback that never matches. -/
theorem update_mos_exhausts_after_three_w :
    (update_mos [] 0 (fun _ => 1)).success = false ∧
    (update_mos [] 0 (fun _ => 1)).attempts = 3 ∧
    (update_mos [] 0 (fun _ => 1)).trace =
      Ev.di :: (List.replicate 3 (attemptTrace 0)).flatten ∧
    (update_mos [] 0 (fun _ => 1)).trace.count Ev.verifyCheck = 3 :=
  update_mos_exhausts_after_three [] 0 (fun _ => 1) (by decide) (fun _ => Nat.one_ne_zero)

/-- Claim C2: when the checksum computed while staging differs from the
expected checksum, update_mos returns failure with an empty hardware event
trace: no interrupt disable, no protection unlock, no erase and no page
program is issued. -/
theorem update_mos_staging_mismatch_aborts (fileBytes : List Nat) (moscrc : Nat)
    (verifyCrc : Nat → Nat) (h : crc32_bytes fileBytes ≠ moscrc) :
    update_mos fileBytes moscrc verifyCrc = ⟨false, 0, []⟩ := by
  simp [update_mos, h]

/-- Witness for C2 at a concrete input: the empty staged image against an
expected checksum of 1. -/
theorem update_mos_staging_mismatch_aborts_w :
    update_mos [] 1 (fun _ => 0) = ⟨false, 0, []⟩ :=
  update_mos_staging_mismatch_aborts [] 1 (fun _ => 0) (by decide)

/-- Claim C3: every attempt of update_mos emits the same attempt trace (the
full trace is the di instruction followed by one copy of the attempt trace
per attempt, whatever the verify outcomes), and within the attempt trace the
protection re-lock happens exactly once and strictly before the single verify
checksum event. -/
theorem update_mos_relock_before_verify (fileBytes : List Nat) (moscrc : Nat)
    (verifyCrc : Nat → Nat) (hstage : crc32_bytes fileBytes = moscrc) :
    ((update_mos fileBytes moscrc verifyCrc).trace =
      Ev.di :: (List.replicate (update_mos fileBytes moscrc verifyCrc).attempts
        (attemptTrace fileBytes.length)).flatten) ∧
    (attemptTrace fileBytes.length).count (Ev.setProt 0xFF) = 1 ∧
    (attemptTrace fileBytes.length).count Ev.verifyCheck = 1 ∧
    ∃ l1 l2, attemptTrace fileBytes.length = l1 ++ Ev.setProt 0xFF :: l2 ∧
      Ev.verifyCheck ∈ l2 ∧ Ev.verifyCheck ∉ l1 := by
  refine ⟨?_, attemptTrace_count_relock _, attemptTrace_count_verify _, ?_⟩
  · cases h0 : (verifyCrc 0 == moscrc) <;> cases h1 : (verifyCrc 1 == moscrc) <;>
      cases h2 : (verifyCrc 2 == moscrc) <;>
      simp [update_mos, hstage, mosAttempts3, h0, h1, h2]
  · refine ⟨attemptPreamble ++ eraseEvents ++ progEvents fileBytes.length ++
      [Ev.flashKeyUnlock], [Ev.verifyCheck], ?_, by simp, ?_⟩
    · simp [attemptTrace, attemptPost]
    · intro hmem
      simp only [List.mem_append] at hmem
      rcases hmem with ((h | h) | h) | h
      · revert h; decide
      · revert h; decide
      · obtain ⟨x, y, z, hc⟩ := progEvents_mem h; cases hc
      · revert h; decide

/-- Witness for C3 at a concrete input: the empty staged image with matching
staging checksum and a flash readback that succeeds immediately. -/
theorem update_mos_relock_before_verify_w :
    ((update_mos [] 0 (fun _ => 0)).trace =
      Ev.di :: (List.replicate (update_mos [] 0 (fun _ => 0)).attempts
        (attemptTrace 0)).flatten) ∧
    (attemptTrace 0).count (Ev.setProt 0xFF) = 1 ∧
    (attemptTrace 0).count Ev.verifyCheck = 1 ∧
    ∃ l1 l2, attemptTrace 0 = l1 ++ Ev.setProt 0xFF :: l2 ∧
      Ev.verifyCheck ∈ l2 ∧ Ev.verifyCheck ∉ l1 :=
  update_mos_relock_before_verify [] 0 (fun _ => 0) (by decide)

/-- Counterexample for C5: on a run in which every verify fails, update_mos
makes 3 attempts but the trace contains exactly one interrupt-disable event
(so interrupts are not disabled at the entry of each attempt) and no
interrupt-enable event at all (so no exit path re-enables them). -/
theorem interrupts_not_per_attempt :
    (update_mos [] 0 (fun _ => 1)).attempts = 3 ∧
    (update_mos [] 0 (fun _ => 1)).trace.count Ev.di = 1 ∧
    (update_mos [] 0 (fun _ => 1)).trace.count Ev.ei = 0 ∧
    ¬((update_mos [] 0 (fun _ => 1)).trace.count Ev.di =
        (update_mos [] 0 (fun _ => 1)).attempts ∧
      0 < (update_mos [] 0 (fun _ => 1)).trace.count Ev.ei) := by
  decide

/-- Claim C5 as amended: update_mos disables interrupts exactly once,
immediately before the first attempt, and never re-enables them: the whole
retry loop runs inside a single interrupt-disabled section which is still
engaged when update_mos returns. -/
theorem update_mos_single_di (fileBytes : List Nat) (moscrc : Nat)
    (verifyCrc : Nat → Nat) (hstage : crc32_bytes fileBytes = moscrc) :
    (update_mos fileBytes moscrc verifyCrc).trace.head? = some Ev.di ∧
    (update_mos fileBytes moscrc verifyCrc).trace.count Ev.di = 1 ∧
    (update_mos fileBytes moscrc verifyCrc).trace.count Ev.ei = 0 := by
  cases h0 : (verifyCrc 0 == moscrc) <;> cases h1 : (verifyCrc 1 == moscrc) <;>
    cases h2 : (verifyCrc 2 == moscrc) <;>
    simp [update_mos, hstage, mosAttempts3, h0, h1, h2, List.count_cons,
      count_flatten_replicate, attemptTrace_count_di, attemptTrace_count_ei]

/-- Witness for the amended C5 at a concrete input. -/
theorem update_mos_single_di_w :
    (update_mos [] 0 (fun _ => 0)).trace.head? = some Ev.di ∧
    (update_mos [] 0 (fun _ => 0)).trace.count Ev.di = 1 ∧
    (update_mos [] 0 (fun _ => 0)).trace.count Ev.ei = 0 :=
  update_mos_single_di [] 0 (fun _ => 0) (by decide)

/-- Counterexample for C4: the erase loop of an attempt issues 128
erase-and-wait operations (one per 1024-byte flash page, FLASHPAGES of them),
not 8 (one per 16384-byte protection block) as the claim states. Shown here on
the attempt trace for a 1024-byte image. -/
theorem erase_loop_not_eight_blocks :
    (attemptTrace 1024).countP isErase = 128 ∧
    ¬((attemptTrace 1024).countP isErase = 8) := by
  decide

/-- Claim C4 as amended: in every attempt the erase phase issues exactly one
synchronous erase-and-wait operation per 1024-byte flash page, iterating over
all 128 pages (FLASHPAGES) of the flash target in order and skipping none,
and the whole erase phase completes before any page is programmed: the
attempt trace splits into a part containing no program event followed by a
part containing no erase event. -/
theorem erase_loop_covers_all_pages (fs : Nat) :
    erasedPages (attemptTrace fs) = List.range FLASHPAGES ∧
    (attemptTrace fs).countP isErase = FLASHPAGES ∧
    ∃ l1 l2, attemptTrace fs = l1 ++ l2 ∧
      (∀ e ∈ l1, isProg e = false) ∧ (∀ e ∈ l2, isErase e = false) := by
  have hprog : ∀ e ∈ progEvents fs, isErase e = false := by
    intro e he
    obtain ⟨x, y, z, hc⟩ := progEvents_mem he
    subst hc; rfl
  have hep : ∀ l1 l2 : List Ev, erasedPages (l1 ++ l2) = erasedPages l1 ++ erasedPages l2 := by
    intro l1 l2; simp [erasedPages]
  have h1 : erasedPages (progEvents fs) = [] := by
    simp only [erasedPages, List.filterMap_eq_nil_iff]
    intro e he
    obtain ⟨x, y, z, hc⟩ := progEvents_mem he
    subst hc; rfl
  refine ⟨?_, ?_, attemptPreamble ++ eraseEvents, progEvents fs ++ attemptPost,
    by simp [attemptTrace], ?_, ?_⟩
  · rw [attemptTrace, hep, hep, hep, h1]
    rw [show erasedPages attemptPreamble = [] from by decide,
      show erasedPages attemptPost = [] from by decide,
      show erasedPages eraseEvents = List.range FLASHPAGES from by decide]
    simp
  · have h2 : (progEvents fs).countP isErase = 0 := by
      refine List.countP_eq_zero.mpr fun e he => ?_
      simp [hprog e he]
    simp [attemptTrace, List.countP_append, h2]
    decide
  · decide
  · intro e he
    rcases List.mem_append.mp he with h | h
    · exact hprog e h
    · exact (by decide : ∀ x ∈ attemptPost, isErase x = false) e h

/-- Witness for the amended C4 at a concrete image size. -/
theorem erase_loop_covers_all_pages_w :
    erasedPages (attemptTrace 1024) = List.range FLASHPAGES :=
  (erase_loop_covers_all_pages 1024).1

/-- Feeding a list of chunks one by one equals feeding their concatenation. -/
lemma crc32_flatten (a : Nat) (chunks : List (List Nat)) :
    crc32 a chunks.flatten = chunks.foldl crc32 a := by
  induction chunks generalizing a with
  | nil => rfl
  | cons c cs ih =>
    simp only [List.flatten_cons, List.foldl_cons, crc32, List.foldl_append]
    exact ih (List.foldl crc32_updateByte a c)

/-- Claim C6: for every byte sequence and every split of it into consecutive
chunks (empty chunks allowed), feeding the chunks in order into a freshly
initialized CRC-32 accumulator and finalizing yields the same checksum as one
single feed of the whole sequence. -/
theorem crc32_chunk_invariance (chunks : List (List Nat)) :
    crc32_finalize (chunks.foldl crc32 crc32_init) =
      crc32_finalize (crc32 crc32_init chunks.flatten) := by
  rw [crc32_flatten]

/-- Claim C7: for an image of size S with 0 < S, the program phase of an
attempt writes exactly ceil(S / 1024) pages at ascending flash addresses
(page c goes to FLASHSTART + c * PAGESIZE from staging address
BUFFER1 + c * PAGESIZE); every page except the last is copied with length
PAGESIZE, and the last page with length S mod PAGESIZE, or PAGESIZE when S is
evenly divisible. -/
theorem update_mos_page_layout (S : Nat) (h : 0 < S) :
    pagemaxOf S = (S + PAGESIZE - 1) / PAGESIZE ∧
    (progEvents S).length = pagemaxOf S ∧
    (∀ c, c < pagemaxOf S →
      (progEvents S)[c]? = some (Ev.progPage (FLASHSTART + c * PAGESIZE)
        (BUFFER1 + c * PAGESIZE)
        (if c + 1 = pagemaxOf S then
          (if S % PAGESIZE = 0 then PAGESIZE else S % PAGESIZE)
        else PAGESIZE))) := by
  have hpm : 1 ≤ pagemaxOf S := by
    simp only [pagemaxOf, PAGESIZE]
    split <;> omega
  refine ⟨?_, by simp [progEvents], ?_⟩
  · simp only [pagemaxOf, PAGESIZE]
    split <;> omega
  · intro c hc
    have hidx : (progEvents S)[c]? = some (Ev.progPage (FLASHSTART + c * PAGESIZE)
        (BUFFER1 + c * PAGESIZE)
        (if c = pagemaxOf S - 1 then lastpagebytesOf S else PAGESIZE)) := by
      simp [progEvents, List.getElem?_map, List.getElem?_range, hc]
    rw [hidx]
    have hif : (if c = pagemaxOf S - 1 then lastpagebytesOf S else PAGESIZE) =
        (if c + 1 = pagemaxOf S then
          (if S % PAGESIZE = 0 then PAGESIZE else S % PAGESIZE)
        else PAGESIZE) := by
      by_cases hc1 : c + 1 = pagemaxOf S
      · have hcc : c = pagemaxOf S - 1 := by omega
        rw [if_pos hcc, if_pos hc1]
        by_cases hz : S % PAGESIZE = 0 <;> simp [lastpagebytesOf, hz]
      · have hcc : ¬(c = pagemaxOf S - 1) := by omega
        rw [if_neg hcc, if_neg hc1]
    rw [hif]

/-- Witness for C7 at image size 5121 = 5 * 1024 + 1. -/
theorem update_mos_page_layout_w :
    pagemaxOf 5121 = (5121 + PAGESIZE - 1) / PAGESIZE ∧
    (progEvents 5121).length = pagemaxOf 5121 ∧
    (∀ c, c < pagemaxOf 5121 →
      (progEvents 5121)[c]? = some (Ev.progPage (FLASHSTART + c * PAGESIZE)
        (BUFFER1 + c * PAGESIZE)
        (if c + 1 = pagemaxOf 5121 then
          (if 5121 % PAGESIZE = 0 then PAGESIZE else 5121 % PAGESIZE)
        else PAGESIZE))) :=
  update_mos_page_layout 5121 (by decide)

lemma vdp_ota_present_iff (screen : Nat → Nat → Nat) :
    vdp_ota_present screen = true ↔
      (List.range UNLOCKMATCHLENGTH).map (fun n => screen (n + 8) 3) = unlockMatch := by
  have ht : (vdpReadback screen).take UNLOCKMATCHLENGTH =
      (List.range UNLOCKMATCHLENGTH).map (fun n => screen (n + 8) 3) := by
    rw [vdpReadback, vdpStoreIndices, ← List.map_take, List.take_range,
      Nat.min_eq_left (Nat.le_succ _)]
  rw [vdp_ota_present, ht, beq_iff_eq]

/-- Claim C8: update_vdp sends the transfer trigger startVDPupdate exactly
when the 9 characters read back from the fixed screen position spell the
unlock match string; on any other response the returned flag equals the
trigger decision (failure, no trigger), and the unlock command is sent
exactly once, with no retry. -/
theorem update_vdp_trigger_iff_unlocked (screen : Nat → Nat → Nat) :
    ((update_vdp screen).triggerSent = true ↔
      (List.range UNLOCKMATCHLENGTH).map (fun n => screen (n + 8) 3) = unlockMatch) ∧
    (update_vdp screen).ok = (update_vdp screen).triggerSent ∧
    (update_vdp screen).unlockSends = 1 := by
  have htr : (update_vdp screen).triggerSent = vdp_ota_present screen := by
    unfold update_vdp; split <;> simp_all
  refine ⟨by rw [htr, vdp_ota_present_iff], ?_, ?_⟩
  · unfold update_vdp; split <;> rfl
  · unfold update_vdp; split <;> rfl

/-- Witness for C8 at concrete screens: a screen spelling the match string
makes the trigger fire, the all-zero screen does not. -/
theorem update_vdp_trigger_iff_unlocked_w :
    (update_vdp goodScreen).triggerSent = true ∧
    (update_vdp (fun _ _ => 0)).triggerSent = false :=
  ⟨(update_vdp_trigger_iff_unlocked goodScreen).1.mpr (by decide),
   by
    have h := (update_vdp_trigger_iff_unlocked (fun _ _ => 0)).1
    cases hb : (update_vdp (fun _ _ => 0)).triggerSent
    · rfl
    · exact absurd (h.mp hb) (by decide)⟩

lemma containsESP32Header_iff (buf : Nat → Nat) :
    containsESP32Header buf = true ↔
      (buf 0x20 = 0x32 ∧ buf 0x21 = 0x54 ∧ buf 0x22 = 0xCD ∧ buf 0x23 = 0xAB) := by
  have hr : List.range ESP32_MAGICLENGTH = [0, 1, 2, 3] := by decide
  rw [containsESP32Header, hr]
  simp only [List.foldl_cons, List.foldl_nil]
  by_cases h0 : buf 32 = 50 <;> by_cases h1 : buf 33 = 84 <;>
    by_cases h2 : buf 34 = 205 <;> by_cases h3 : buf 35 = 171 <;>
    simp [esp32_magicnumbers, ESP32_MAGICSTART, List.getD, h0, h1, h2, h3] <;>
    omega

/-- Claim C9: containsESP32Header is true exactly when the four bytes at
offsets 0x20 through 0x23 equal the ESP32 magic sequence; two buffers that
agree on that window get the same result (bytes outside never matter); and
changing exactly one byte inside the window of a matching buffer makes the
result false. -/
theorem containsESP32Header_spec :
    (∀ buf : Nat → Nat, containsESP32Header buf = true ↔
      (buf 0x20 = 0x32 ∧ buf 0x21 = 0x54 ∧ buf 0x22 = 0xCD ∧ buf 0x23 = 0xAB)) ∧
    (∀ buf buf2 : Nat → Nat,
      (∀ i, 0x20 ≤ i → i < 0x24 → buf i = buf2 i) →
      containsESP32Header buf = containsESP32Header buf2) ∧
    (∀ buf buf2 : Nat → Nat, ∀ k, 0x20 ≤ k → k < 0x24 →
      containsESP32Header buf = true → buf2 k ≠ buf k →
      (∀ i, i ≠ k → buf2 i = buf i) → containsESP32Header buf2 = false) := by
  refine ⟨containsESP32Header_iff, ?_, ?_⟩
  · intro buf buf2 hag
    have e0 := hag 32 (by omega) (by omega)
    have e1 := hag 33 (by omega) (by omega)
    have e2 := hag 34 (by omega) (by omega)
    have e3 := hag 35 (by omega) (by omega)
    cases hb : containsESP32Header buf with
    | true =>
      obtain ⟨a, b, c, d⟩ := (containsESP32Header_iff buf).mp hb
      exact ((containsESP32Header_iff buf2).mpr
        ⟨e0 ▸ a, e1 ▸ b, e2 ▸ c, e3 ▸ d⟩).symm
    | false =>
      cases hb2 : containsESP32Header buf2 with
      | false => rfl
      | true =>
        obtain ⟨a, b, c, d⟩ := (containsESP32Header_iff buf2).mp hb2
        rw [(containsESP32Header_iff buf).mpr
          ⟨e0.symm ▸ a, e1.symm ▸ b, e2.symm ▸ c, e3.symm ▸ d⟩] at hb
        exact absurd hb (by decide)
  · intro buf buf2 k hk1 hk2 hm hflip hrest
    obtain ⟨a, b, c, d⟩ := (containsESP32Header_iff buf).mp hm
    cases hb2 : containsESP32Header buf2 with
    | false => rfl
    | true =>
      obtain ⟨a2, b2, c2, d2⟩ := (containsESP32Header_iff buf2).mp hb2
      exfalso
      interval_cases k
      · exact hflip (a2.trans a.symm)
      · exact hflip (b2.trans b.symm)
      · exact hflip (c2.trans c.symm)
      · exact hflip (d2.trans d.symm)

/-- Witness for C9 at concrete buffers: the buffer carrying the magic window
is accepted, and flipping the single byte at offset 0x23 is rejected. -/
theorem containsESP32Header_spec_w :
    containsESP32Header espGoodBuf = true ∧ containsESP32Header espBadBuf = false :=
  ⟨containsESP32Header_spec.1 espGoodBuf |>.mpr (by decide),
   containsESP32Header_spec.2.2 espGoodBuf espBadBuf 35 (by omega) (by omega)
     (containsESP32Header_spec.1 espGoodBuf |>.mpr (by decide))
     (by decide)
     (fun i hi => by simp [espBadBuf, hi])⟩

/-- Claim C10 refuted by evaluation: the store loop of vdp_ota_present runs
its index n over UNLOCKMATCHLENGTH + 1 values, so n = 9 is stored, which is
not strictly smaller than the declared buffer length UNLOCKMATCHLENGTH = 9;
the final iteration writes one element past the end of the response buffer. -/
theorem vdp_unlock_readback_overflow :
    9 ∈ vdpStoreIndices ∧ ¬(∀ i ∈ vdpStoreIndices, i < UNLOCKMATCHLENGTH) := by
  decide

end AgonFlash
